import Mathlib

/-!
A shallow embedding of the DataMigrator migration engine
(`DataMigrator/database.py`, `DataMigrator/suspended_list.py`,
`DataMigrator/migration_toolkit.py`) and proofs about it.

Conventions of the embedding:
* Python cell values are modelled by `Val` (`None`, `int`, `str`); the engine
  never needs other scalar kinds for the properties studied here.
* Fallible Python code is modelled in the `Except PyErr` monad; an uncaught
  Python exception is an `Except.error`.
* Python `dict`s (which preserve insertion order, overwrite values in place
  and delete keys) are modelled as insertion-ordered association lists with
  the operations `dictLookup`, `dictSet`, `dictDel`.
* Python `list` indexing (`xs[i]`, including negative indices and
  `IndexError`) is modelled by `pyIndex`.
* Mutation is modelled by explicit state passing: every method that mutates
  `self` returns the new value of `self`.
-/

/-- A Python scalar cell value as used by the engine: `None`, an `int`, or a
`str`. -/
inductive Val where
  | vnone : Val
  | vint : Int → Val
  | vstr : String → Val
deriving DecidableEq, Repr

/-- The kinds of Python exceptions the embedded code can raise. `exn` stands
for a bare `Exception` with a message (e.g. the `DependencyError` texts). -/
inductive PyErr where
  | keyError : String → PyErr
  | indexError : String → PyErr
  | typeError : String → PyErr
  | valueError : String → PyErr
  | nameError : String → PyErr
  | exn : String → PyErr
deriving DecidableEq, Repr

/-- Monad of fallible Python computations. -/
abbrev PyM (α : Type) := Except PyErr α

/-- `True` iff the computation finished without an exception. -/
def pmIsOk {α : Type} : PyM α → Bool
  | .ok _ => true
  | .error _ => false

/-- Python list indexing `xs[i]` with negative-index wraparound and
`IndexError` when out of range. -/
def pyIndex (l : List Val) (i : Int) : PyM Val :=
  if h : 0 ≤ i ∧ i.toNat < l.length then
    .ok (l.get ⟨i.toNat, h.2⟩)
  else if h' : i < 0 ∧ 0 ≤ (l.length : Int) + i ∧ ((l.length : Int) + i).toNat < l.length then
    .ok (l.get ⟨((l.length : Int) + i).toNat, h'.2.2⟩)
  else
    .error (.indexError "list index out of range")

/-- Insertion-ordered dict lookup. -/
def dictLookup {α : Type} [DecidableEq α] {β : Type} : List (α × β) → α → Option β
  | [], _ => none
  | (k, v) :: rest, key => if k = key then some v else dictLookup rest key

/-- Insertion-ordered dict update `d[k] = v`: overwrite in place if the key
exists, else append at the end (Python 3.7+ dict semantics). -/
def dictSet {α : Type} [DecidableEq α] {β : Type} : List (α × β) → α → β → List (α × β)
  | [], key, v => [(key, v)]
  | (k, v₀) :: rest, key, v =>
      if k = key then (k, v) :: rest else (k, v₀) :: dictSet rest key v

/-- Dict deletion `del d[k]`. -/
def dictDel {α : Type} [DecidableEq α] {β : Type} : List (α × β) → α → List (α × β)
  | [], _ => []
  | (k, v) :: rest, key => if k = key then rest else (k, v) :: dictDel rest key

/-- Dict membership `k in d`. -/
def dictMem {α : Type} [DecidableEq α] {β : Type} (d : List (α × β)) (key : α) : Bool :=
  (dictLookup d key).isSome

/-- `s.startswith(p)`, computed on the character lists. (Python string
operations act on code points, as these list-level versions do; the
`Substring`-based library versions are extensionally the same but opaque to
kernel reduction.) -/
def strStartsWith (s p : String) : Bool := p.data.isPrefixOf s.data

/-- The longest prefix of characters satisfying `p`. -/
def strTakeWhile (p : Char → Bool) (s : String) : String := ⟨s.data.takeWhile p⟩

/-- Whether every character satisfies `p`. -/
def strAll (p : Char → Bool) (s : String) : Bool := s.data.all p

/-- The first `n` characters. -/
def strTake (s : String) (n : Nat) : String := ⟨s.data.take n⟩

/-- Strip leading and trailing whitespace (Python `str.strip`, as `int()`
applies it). -/
def strTrim (s : String) : String :=
  ⟨((s.data.dropWhile Char.isWhitespace).reverse.dropWhile Char.isWhitespace).reverse⟩

/-- The closed set of column variants of `database.py`: `Column` (plain),
`PlaceHolderColumn`, `EmptyColumn`, `FilledColumn`, `IndexColumn`. Every
variant carries the `data` list of the underlying Python `Column` (for
placeholder/empty/filled it starts empty and is mutated only through the
inherited `Column` methods). -/
inductive Col where
  | plain : String → String → List Val → Col
  | holder : List Val → Col
  | empty : String → String → List Val → Col
  | filled : String → String → Val → List Val → Col
  | indexc : String → String → Int → List Val → Col
deriving DecidableEq, Repr

namespace Col

/-- The `title` attribute (a `PlaceHolderColumn` is constructed with title `''`). -/
def title : Col → String
  | .plain t _ _ => t
  | .holder _ => ""
  | .empty t _ _ => t
  | .filled t _ _ _ => t
  | .indexc t _ _ _ => t

/-- The `comment` attribute (`''` when the constructor got `None`). -/
def comment : Col → String
  | .plain _ c _ => c
  | .holder _ => ""
  | .empty _ c _ => c
  | .filled _ c _ _ => c
  | .indexc _ c _ _ => c

/-- The raw `data` attribute of the Python object. -/
def rawData : Col → List Val
  | .plain _ _ d => d
  | .holder d => d
  | .empty _ _ d => d
  | .filled _ _ _ d => d
  | .indexc _ _ _ d => d

/-- Replace the raw `data` attribute. -/
def withData : Col → List Val → Col
  | .plain t c _, d => .plain t c d
  | .holder _, d => .holder d
  | .empty t c _, d => .empty t c d
  | .filled t c f _, d => .filled t c f d
  | .indexc t c s _, d => .indexc t c s d

/-- `count()`: dynamic dispatch — the plain `Column` and `PlaceHolderColumn`
report `len(self.data)`; `EmptyColumn`, `FilledColumn` and `IndexColumn`
override it to return `-1`. -/
def count : Col → Int
  | .plain _ _ d => d.length
  | .holder d => d.length
  | .empty _ _ _ => -1
  | .filled _ _ _ _ => -1
  | .indexc _ _ _ _ => -1

/-- `get_data(index)` with dynamic dispatch over the variants, faithful to
`database.py` (`Column.get_data`, `EmptyColumn.get_data`,
`FilledColumn.get_data`, `IndexColumn.get_data`). -/
def getData : Col → Int → PyM Val
  | .plain _ _ d, i => if i < (d.length : Int) then pyIndex d i else .ok .vnone
  | .holder d, i => if i < (d.length : Int) then pyIndex d i else .ok .vnone
  | .empty _ _ _, _ => .ok .vnone
  | .filled _ _ f _, _ => .ok f
  | .indexc _ _ s d, i => if i < (d.length : Int) then pyIndex d i else .ok (.vint (s + i))

/-- `Column.del_row` (the base-class body): delete `data[index]` when
`index < len(data)`. -/
def baseDelRow (d : List Val) (index : Nat) : List Val :=
  if index < d.length then d.eraseIdx index else d

/-- `del_row(index)` with dynamic dispatch. `IndexColumn.del_row` first
materializes `data` up to position `index` (appending `start_from + i` for
`i` in `range(len(data), index+1)`), then deletes through the base class and
increments `start_from`. The overrides in `PlaceHolderColumn`, `EmptyColumn`
and `FilledColumn` are no-ops. Row indices reaching `del_row` are
non-negative in the engine. -/
def delRow : Col → Nat → Col
  | .plain t c d, i => .plain t c (baseDelRow d i)
  | .holder d, _ => .holder d
  | .empty t c d, _ => .empty t c d
  | .filled t c f d, _ => .filled t c f d
  | .indexc t c s d, i =>
      let dm := d ++ ((List.range (i + 1)).drop d.length).map
        (fun (j : Nat) => Val.vint (s + (j : Int)))
      .indexc t c (s + 1) (baseDelRow dm i)

/-- `Column.swap_row` (base-class body): return unchanged when `i0 == i1`,
order the indices, extend `data` with `None`s when `self.count() <= i1`
(note: `count()` dispatches dynamically, so an `IndexColumn` reaching this
body contributes `count() = -1`), then swap the two cells. -/
def baseSwapRow (cnt : Int) (d : List Val) (i0 i1 : Nat) : List Val :=
  if i0 = i1 then d
  else
    let lo := min i0 i1
    let hi := max i0 i1
    let d' := if cnt ≤ (hi : Int) then d ++ List.replicate ((hi : Int) - cnt + 1).toNat .vnone
              else d
    match d'.get? lo, d'.get? hi with
    | some a, some b => (d'.set lo b).set hi a
    | _, _ => d'

/-- `swap_row(i0, i1)` with dynamic dispatch. `IndexColumn.swap_row` runs
`for i in range(len(self.data)-1, max(i0, i1)): self.data.append(self.get_data[i])`
before delegating: `self.get_data[i]` subscripts the bound method itself, so
the first loop iteration raises `TypeError`; the loop body runs exactly when
`len(data) - 1 < max(i0, i1)`. The placeholder/empty/filled overrides are
no-ops. -/
def swapRow : Col → Nat → Nat → PyM Col
  | .plain t c d, i0, i1 => .ok (.plain t c (baseSwapRow d.length d i0 i1))
  | .holder d, _, _ => .ok (.holder d)
  | .empty t c d, _, _ => .ok (.empty t c d)
  | .filled t c f d, _, _ => .ok (.filled t c f d)
  | .indexc t c s d, i0, i1 =>
      if (d.length : Int) - 1 < (max i0 i1 : Nat) then
        .error (.typeError "method object is not subscriptable")
      else
        .ok (.indexc t c s (baseSwapRow (-1) d i0 i1))

end Col

/-- The `"_Origin"` sentinel of a mapping dict. -/
def vOrigin : Val := .vstr "_Origin"

/-- The `"_Other"` sentinel key of a mapping dict. -/
def vOther : Val := .vstr "_Other"

/-- One step of the substitution loop of `Column._mapping_dict`: `m` is the
loop-carried variable (unbound on entry, hence `Option`); a cell with no
explicit entry and no `"_Other"` key leaves `m` at its previous value — and
raises `NameError` if `m` was never assigned. -/
def mappingStep (mapping : List (Val × Val)) (st : Option Val × List Val) (cell : Val) :
    PyM (Option Val × List Val) :=
  let m : Option Val :=
    match dictLookup mapping cell with
    | some v => some v
    | none => if dictMem mapping vOther then dictLookup mapping vOther else st.1
  match m with
  | none => .error (.nameError "name m is not defined")
  | some mv =>
      if mv ≠ vOrigin then .ok (some mv, st.2 ++ [mv]) else .ok (some mv, st.2 ++ [cell])

/-- `Column._mapping_dict`: if every value of the mapping is `"_Origin"` the
`for…else` clause returns immediately without touching `data`; otherwise each
cell is rewritten through `mappingStep`. -/
def mappingDict (mapping : List (Val × Val)) (data : List Val) : PyM (List Val) := do
  if mapping.all (fun kv => kv.2 = vOrigin) then
    return data
  else
    let st ← data.foldlM (mappingStep mapping) ((none : Option Val), ([] : List Val))
    return st.2

/-- `Column._mapping_func`: map the function over the data, sending `None` to
`None`. -/
def mappingFunc (f : Val → Val) (data : List Val) : List Val :=
  data.map (fun s => if s = Val.vnone then Val.vnone else f s)

/-- A `mapping` argument of the `Column` constructor: either a mapping dict
or a transform function (`migration_toolkit` resolves a mapping name from
`mapping_functions` to a callable; the callable is treated as the opaque
contract the spec gives it and modelled as a Lean function). -/
inductive MappingSpec where
  | dict : List (Val × Val) → MappingSpec
  | func : (Val → Val) → MappingSpec

/-- The `data` argument of the `Column` constructor: absent, a Python list,
or another `Column` object. -/
inductive DataArg where
  | noData : DataArg
  | fromList : List Val → DataArg
  | fromCol : Col → DataArg

/-- Python truthiness of the `data` argument: `None` is falsy, a list is
truthy iff non-empty, a `Column` object is always truthy. -/
def DataArg.truthy : DataArg → Bool
  | .noData => false
  | .fromList l => !l.isEmpty
  | .fromCol _ => true

/-- `Column.__init__`: store title and comment (`''` for `None`), copy the
data out of a list or out of another column's `data` attribute, then adjust
it with the mapping dict or mapping function. The Python default mapping
`{"_Other": "_Origin"}` is modelled by `mapping = none` — `_mapping_dict` on
it returns without changing anything, exactly as the default does. -/
def mkColumn (t : String) (c : Option String) (data : DataArg)
    (mapping : Option MappingSpec) : PyM Col := do
  let cm := c.getD ""
  if data.truthy then
    let d₀ : List Val :=
      match data with
      | .noData => []
      | .fromList l => l
      | .fromCol col => col.rawData
    let d ←
      match mapping with
      | none => pure d₀
      | some (.dict m) => mappingDict m d₀
      | some (.func f) => pure (mappingFunc f d₀)
    return .plain t cm d
  else
    return .plain t cm []

/-- `IndexColumn.__init__`. -/
def mkIndexColumn (t : String) (c : Option String) (startFrom : Int) : Col :=
  .indexc t (c.getD "") startFrom []

/-- `FilledColumn.__init__`. -/
def mkFilledColumn (t : String) (c : Option String) (filler : Val) : Col :=
  .filled t (c.getD "") filler []

/-- `EmptyColumn.__init__`. -/
def mkEmptyColumn (t : String) (c : Option String) : Col :=
  .empty t (c.getD "") []

/-- A `Table` of `database.py`: name, ordered columns, the `_column_index`
dict from titles to positions, and `_max_row_num`. -/
structure Table where
  name : String
  columns : List Col
  columnIndex : List (String × Nat)
  maxRowNum : Int
deriving DecidableEq, Repr

namespace Table

/-- `Table.__init__` without the optional `columns` argument (the engine
always builds target tables empty). -/
def init (name : String) : Table :=
  ⟨name, [], [], 0⟩

/-- `Table._check_new_title`: raise `ValueError` when the title is already a
key of `_column_index`; otherwise do nothing. -/
def checkNewTitle (t : Table) (newTitle : String) : PyM Unit :=
  if dictMem t.columnIndex newTitle then .error (.valueError "Title already exists.")
  else .ok ()

/-- `Table.append_column` after the new column object has been constructed:
append it, point `_column_index[title]` at it, and raise `_max_row_num` to
its `count()` if larger. No title check is performed. -/
def appendCol (t : Table) (c : Col) : Table :=
  { t with
    columns := t.columns ++ [c]
    columnIndex := dictSet t.columnIndex c.title t.columns.length
    maxRowNum := max c.count t.maxRowNum }

/-- `Table.suspended_column`: append a `PlaceHolderColumn` (without touching
`_column_index`) and return its index. -/
def suspendedColumn (t : Table) : Table × Nat :=
  ({ t with columns := t.columns ++ [Col.holder []] }, t.columns.length)

/-- `Table.insert_column` after construction of the new column object: pad
with placeholders when the index is past the end, overwrite the slot, update
the index map and `_max_row_num`. No title check is performed. -/
def insertCol (t : Table) (index : Nat) (c : Col) : Table :=
  let cols := if t.columns.length ≤ index then
      t.columns ++ List.replicate (index - t.columns.length + 1) (Col.holder [])
    else t.columns
  { t with
    columns := cols.set index c
    columnIndex := dictSet t.columnIndex c.title index
    maxRowNum := max c.count t.maxRowNum }

/-- Exact-title column lookup `Table.get_column(title)` (the `loose=False`
branch): `KeyError` when the title is not in `_column_index`, then a Python
list subscript. -/
def getColumn (t : Table) (title : String) : PyM Col :=
  match dictLookup t.columnIndex title with
  | none => .error (.keyError title)
  | some i =>
      if h : i < t.columns.length then .ok (t.columns.get ⟨i, h⟩)
      else .error (.indexError "list index out of range")

/-- A string with all whitespace removed (`re.sub(r"\s", '', s)`). -/
def stripWs (s : String) : String :=
  ⟨s.data.filter (fun c => !c.isWhitespace)⟩

/-- Fuzzy column lookup `Table.get_column(title, loose=True)`: scan the
columns, matching first on whitespace-stripped equality and then on
`re.match(column_title, c.title)`. The dynamic `re.match` is modelled for
metacharacter-free patterns, for which it is a prefix test. `KeyError` when
nothing matches. -/
def getColumnLoose (t : Table) (title : String) : PyM Col :=
  match t.columns.find? (fun c =>
      stripWs c.title = stripWs title || strStartsWith c.title title) with
  | some c => .ok c
  | none => .error (.keyError title)

/-- `Table.del_row`: propagate to every column and decrement `_max_row_num`.
Row indices reaching it are non-negative. -/
def delRow (t : Table) (index : Nat) : Table :=
  { t with
    columns := t.columns.map (fun c => c.delRow index)
    maxRowNum := t.maxRowNum - 1 }

/-- `Table.swap_row`: return unchanged when `i0 == i1`, order the indices,
raise `IndexError` when `_max_row_num <= i1`, else swap in every column in
order (a column raising aborts the remaining ones). -/
def swapRow (t : Table) (i0 i1 : Nat) : PyM Table :=
  if i0 = i1 then .ok t
  else
    let lo := min i0 i1
    let hi := max i0 i1
    if t.maxRowNum ≤ (hi : Int) then
      .error (.indexError ("row " ++ toString hi ++ " do not exists"))
    else do
      let cols ← t.columns.mapM (fun c => c.swapRow lo hi)
      return { t with columns := cols }

end Table

/-- A `Database` of `database.py`: ordered tables and the `_table_index`
dict. -/
structure Database where
  tables : List Table
  tableIndex : List (String × Nat)
deriving DecidableEq, Repr

namespace Database

/-- `Database.__init__`. -/
def init : Database := ⟨[], []⟩

/-- Exact-name table lookup `Database.get_table(name)` (the `loose=False`
branch). -/
def getTable (db : Database) (name : String) : PyM Table :=
  match dictLookup db.tableIndex name with
  | none => .error (.keyError name)
  | some i =>
      if h : i < db.tables.length then .ok (db.tables.get ⟨i, h⟩)
      else .error (.indexError "list index out of range")

/-- `Database.add_table`: append an empty table and return (as the second
component) its position, which is what the Python reference to the new table
amounts to in the state-passing model. -/
def addTable (db : Database) (name : String) : Database × Nat :=
  ({ tables := db.tables ++ [Table.init name]
     tableIndex := dictSet db.tableIndex name db.tables.length },
   db.tables.length)

/-- Overwrite the table at a position (the effect, in the state-passing
model, of mutating a table held by reference). -/
def setTable (db : Database) (i : Nat) (t : Table) : Database :=
  { db with tables := db.tables.set i t }

/-- Read the table at a position; `IndexError` if out of range (never the
case for positions returned by `addTable`). -/
def tableAt (db : Database) (i : Nat) : PyM Table :=
  if h : i < db.tables.length then .ok (db.tables.get ⟨i, h⟩)
  else .error (.indexError "list index out of range")

end Database

/-- `(Sheetname, Columntitle)` — the `ColInfo` alias of `suspended_list.py`. -/
abbrev ColInfo := String × String

/-- `re.match(r"_This\..+", s)` (equivalently the two-group form used in
`suspended_list.py`): when it matches, the table name `s[6:]`. -/
def thisRefName (s : String) : Option String :=
  if strStartsWith s "_This." && 6 < s.length then some (s.drop 6) else none

/-- Digit run to a number (the value `int` gives an all-digit string). -/
def digitsToNat (s : String) : Nat :=
  s.data.foldl (fun n c => n * 10 + (c.toNat - 48)) 0

/-- `re.match(r"(_Add)([0-9]+)\.(.+)", s)`: the auxiliary-dataset number and
the table name after the dot. -/
def parseAddRef (s : String) : Option (Nat × String) :=
  if strStartsWith s "_Add" then
    let rest := s.drop 4
    let ds := strTakeWhile Char.isDigit rest
    let after := rest.drop ds.length
    if 0 < ds.length && strStartsWith after "." && 1 < after.length then
      some (digitsToNat ds, after.drop 1)
    else none
  else none

/-- `re.match(r"(_Sub)([0-9]+)", s)`: prefix-anchored, so trailing characters
are ignored. -/
def parseSubRef (s : String) : Option Nat :=
  if strStartsWith s "_Sub" then
    let ds := strTakeWhile Char.isDigit (s.drop 4)
    if 0 < ds.length then some (digitsToNat ds) else none
  else none

/-- `migration_toolkit.dereference_column`: resolve `(table_ref, column_ref)`
against the target (`_This.`), an auxiliary dataset (`_AddN.`), the sub-table
dataset (`_SubN`, fuzzy column lookup), or the primary source, in that
precedence order. -/
def dereferenceColumn (srcDb : Database) (exSrcDb : List Database) (subDb : Database)
    (tgtDb : Database) (tableRef columnRef : String) : PyM Col :=
  match thisRefName tableRef with
  | some nm => do (← tgtDb.getTable nm).getColumn columnRef
  | none =>
    match parseAddRef tableRef with
    | some (n, nm) =>
        if h : n < exSrcDb.length then do
          (← (exSrcDb.get ⟨n, h⟩).getTable nm).getColumn columnRef
        else .error (.indexError "list index out of range")
    | none =>
      match parseSubRef tableRef with
      | some n =>
          if h : n < subDb.tables.length then
            (subDb.tables.get ⟨n, h⟩).getColumnLoose columnRef
          else .error (.indexError "list index out of range")
      | none => do (← srcDb.getTable tableRef).getColumn columnRef

/-- Python `int(s)` on a string: optional surrounding whitespace, optional
sign, at least one digit; otherwise `ValueError`. -/
def pyIntOfString (s : String) : PyM Int :=
  let t := strTrim s
  if strStartsWith t "-" then
    let d := t.drop 1
    if d ≠ "" && strAll Char.isDigit d then .ok (-(digitsToNat d : Int))
    else .error (.valueError ("invalid literal for int: " ++ s))
  else
    let d := if strStartsWith t "+" then t.drop 1 else t
    if d ≠ "" && strAll Char.isDigit d then .ok (digitsToNat d)
    else .error (.valueError ("invalid literal for int: " ++ s))

/-- Python `int(v)` on a scalar: identity on ints, string parsing on strings,
`TypeError` on `None`. -/
def pyInt (v : Val) : PyM Int :=
  match v with
  | .vint n => .ok n
  | .vstr s => pyIntOfString s
  | .vnone => .error (.typeError "int() argument must not be None")

/-- `migration_toolkit.substitute_args`: `re.match(r"_arg[0-9]+", s)` needs a
string (`TypeError` otherwise) and is prefix-anchored, so it fires whenever
`s` starts with `_arg` plus one digit; then `int(s[4:])` parses *everything*
after `_arg` (a `ValueError` escapes for, e.g., `"_arg1x"`), and `args[index]`
is returned (an `IndexError` escapes when out of range). Any other string is
returned unchanged. -/
def substituteArgs (s : Val) (args : List Val) : PyM Val :=
  match s with
  | .vstr str =>
      let rest := str.drop 4
      if strStartsWith str "_arg" && strAll Char.isDigit (strTake rest 1) && rest ≠ "" then do
        let n ← pyIntOfString rest
        pyIndex args n
      else .ok (.vstr str)
  | _ => .error (.typeError "expected string or bytes-like object")

/-- The transform-script contract of a `dependence` column (spec §4.4): the
`exec`'d script sees `l`, `tgt`, `dpd`, `args` and its effect is the final
value of `tgt`. The script itself is an opaque callable here. -/
abbrev ScriptFn := Nat → List Val → List (List Val) → List Val → List Val

/-- One column specification (an element of a sheet's `columns` list in the
parsed config). Absent keys are `none`. -/
structure CConf where
  title : String
  comment : Option String := none
  copy_from : Option (String × String) := none
  mapping : Option MappingSpec := none
  index_start : Option Val := none
  fill_with : Option Val := none
  dependence : Option (List (String × String)) := none
  script : Option ScriptFn := none

/-- `migration_toolkit.process_cconf`. The target table `t` is the table at
position `tIdx` of the target database (in the source it is an alias into
`tgt_db.tables`); `pos` models the optional insertion position, and the
source's `if pos:` makes `pos = 0` behave exactly like `pos = None`
(truthiness). Returns the updated target database and the success flag;
only a `KeyError` from reference resolution is converted into a `False`
(deferral) return. -/
def processCconf (srcDb : Database) (exSrcDb : List Database) (subDb : Database)
    (tgtDb : Database) (tIdx : Nat) (colConf : CConf) (args : List Val)
    (pos : Option Nat) : PyM (Database × Bool) :=
  let addCol : Database → Col → PyM Database := fun db c => do
    let t ← db.tableAt tIdx
    match pos with
    | some p =>
        if p ≠ 0 then return db.setTable tIdx (t.insertCol p c)
        else return db.setTable tIdx (t.appendCol c)
    | none => return db.setTable tIdx (t.appendCol c)
  match colConf.copy_from with
  | some (tref, cref) =>
      match dereferenceColumn srcDb exSrcDb subDb tgtDb tref cref with
      | .error (.keyError _) => .ok (tgtDb, false)
      | .error e => .error e
      | .ok srcCol => do
          let c ← mkColumn colConf.title colConf.comment (.fromCol srcCol) colConf.mapping
          let db ← addCol tgtDb c
          return (db, true)
  | none =>
  match colConf.index_start with
  | some v => do
      let sv ← substituteArgs v args
      let n ← pyInt sv
      let db ← addCol tgtDb (mkIndexColumn colConf.title colConf.comment n)
      return (db, true)
  | none =>
  match colConf.fill_with with
  | some v => do
      let fv ← substituteArgs v args
      let db ← addCol tgtDb (mkFilledColumn colConf.title colConf.comment fv)
      return (db, true)
  | none =>
  match colConf.dependence with
  | some refs =>
      match refs.mapM (fun r => dereferenceColumn srcDb exSrcDb subDb tgtDb r.1 r.2) with
      | .error (.keyError _) => .ok (tgtDb, false)
      | .error e => .error e
      | .ok cols => do
          let dpd := cols.map Col.rawData
          match dpd.head? with
          | none => .error (.indexError "list index out of range")
          | some d0 => do
              let l := d0.length
              let tgt := List.replicate l Val.vnone
              match colConf.script with
              | none => .error (.keyError "script")
              | some f => do
                  let newTgt := f l tgt dpd args
                  let c ← mkColumn colConf.title colConf.comment (.fromList newTgt) none
                  let db ← addCol tgtDb c
                  return (db, true)
  | none => do
      let db ← addCol tgtDb (mkEmptyColumn colConf.title colConf.comment)
      return (db, true)

/-- Render a list of reference pairs for the `DependencyError` texts (the
Python code interpolates the list with an f-string; quoting of the items is
abstracted away). -/
def fmtRefList (l : List (String × String)) : String :=
  "[" ++ String.intercalate ", " (l.map (fun r => "(" ++ r.1 ++ ", " ++ r.2 ++ ")")) ++ "]"

/-- `_SuspendInfo`: the config of the deferred column, its *remaining*
unmet-dependency keys, its reserved position, and the released flag. The
`release_func` closure is supplied at release time by `susCheckRel`. -/
structure SusEntry where
  conf : CConf
  waitFor : List ColInfo
  index : Nat
  released : Bool

/-- `_SuspendInfo.__init__`: keep only the `wait_for` pairs whose table
locator matches `_This\..+` (storing `(m.group(2), column)`), and raise the
defer-time `DependencyError` when none does. -/
def mkSuspendInfo (conf : CConf) (waitFor : List (String × String)) (index : Nat) :
    PyM SusEntry :=
  let filtered := waitFor.filterMap (fun r => (thisRefName r.1).map (fun nm => (nm, r.2)))
  if filtered.isEmpty then
    .error (.exn ("DependencyError:\n" ++ conf.title ++ " " ++ toString index ++ " -> "
      ++ fmtRefList waitFor))
  else .ok ⟨conf, filtered, index, false⟩

/-- `SuspendedList` state: the waitlist dict from an unmet key to the entries
blocked on it. Python stores shared mutable `_SuspendInfo` objects in several
buckets; the sharing is modelled by an arena `entries` (ids are positions)
with buckets of ids. -/
structure SuspendedList where
  entries : List SusEntry
  waitlist : List (ColInfo × List Nat)

/-- A fresh `SuspendedList`. -/
def SuspendedList.init : SuspendedList := ⟨[], []⟩

/-- The registration loop of `SuspendedList.append`: for each unmet key in
order, if the key already has a bucket, append the entry there and *return
from the whole method*; otherwise create a singleton bucket and continue with
the next key. -/
def regKeys (id : Nat) : List ColInfo → List (ColInfo × List Nat) → List (ColInfo × List Nat)
  | [], wl => wl
  | wf :: rest, wl =>
      match dictLookup wl wf with
      | some bucket => dictSet wl wf (bucket ++ [id])
      | none => regKeys id rest (wl ++ [(wf, [id])])

/-- `SuspendedList.append`: build the `_SuspendInfo` (which can raise), then
register it through the loop above. -/
def susAppend (sl : SuspendedList) (conf : CConf) (waitFor : List (String × String))
    (index : Nat) : PyM SuspendedList := do
  let e ← mkSuspendInfo conf waitFor index
  let id := sl.entries.length
  return ⟨sl.entries ++ [e], regKeys id e.waitFor sl.waitlist⟩

/-- `SuspendedList.check`, generic in the release function (in
`execute_migration` the release function is a closure over the migration
state of type `σ`; its return value is discarded by `_SuspendInfo.release`).
For each entry in the notified key's bucket, `wait_for.remove(key)` is run
(`ValueError` when absent, as for `list.remove`), the entry is released when
its remaining set is empty and it was not released before, and finally the
whole bucket is deleted. -/
def susCheckRel {σ : Type} (rel : CConf → Nat → σ → PyM σ)
    (st : σ) (sl : SuspendedList) (key : ColInfo) : PyM (σ × SuspendedList) :=
  match dictLookup sl.waitlist key with
  | none => .ok (st, sl)
  | some bucket => do
      let acc ← bucket.foldlM (fun (acc : σ × List SusEntry) id => do
          match acc.2.get? id with
          | none => .error (.indexError "list index out of range")
          | some e =>
              if key ∈ e.waitFor then
                let e' : SusEntry := ⟨e.conf, e.waitFor.erase key, e.index, e.released⟩
                if !e'.released && e'.waitFor.isEmpty then do
                  let s' ← rel e'.conf e'.index acc.1
                  return (s', acc.2.set id ⟨e'.conf, e'.waitFor, e'.index, true⟩)
                else
                  return (acc.1, acc.2.set id e')
              else .error (.valueError "list.remove(x): x not in list")
        ) (st, sl.entries)
      return (acc.1, ⟨acc.2, dictDel sl.waitlist key⟩)

/-- `SuspendedList.something_here`. -/
def susSomethingHere (sl : SuspendedList) : Bool :=
  !sl.waitlist.isEmpty

/-- The message of `SuspendedList.raise_exception`: one line per blocked
entry, bucket by bucket in waitlist order. -/
def susRaiseMsg (tableName : String) (sl : SuspendedList) : String :=
  "DependencyError:\n" ++ String.join (sl.waitlist.map (fun kv =>
    String.join (kv.2.map (fun id =>
      match sl.entries.get? id with
      | some e => tableName ++ " " ++ e.conf.title ++ " " ++ toString e.index ++ " -> "
                  ++ fmtRefList e.waitFor ++ "\n"
      | none => ""))))

/-- One sheet declaration of the parsed config. -/
structure SheetConf where
  name : String
  columns : List CConf

/-- A parsed migration config without a `process` section (no subsheets and
no pre/post hooks): for such configs `get_sub_db` returns an empty database
and the two hook `exec`s of `execute_migration` are skipped, which is the
fragment of the orchestration the studied properties live in. -/
structure Config where
  sheets : List SheetConf

/-- The release closure built per sheet in `execute_migration`:
`lambda conf, ind: process_cconf(src_db, ex_src_db, sub_db, tgt_db, new_table,
conf, args, ind)` — the boolean result is discarded by `release`. -/
def releaseFun (srcDb : Database) (exSrcDb : List Database) (subDb : Database)
    (tIdx : Nat) (args : List Val) (conf : CConf) (ind : Nat) (db : Database) :
    PyM Database := do
  let r ← processCconf srcDb exSrcDb subDb db tIdx conf args (some ind)
  return r.1

/-- The body of the per-column loop of `execute_migration`: process the spec;
on failure reserve a placeholder position and register with the resolver (the
raw `wait_for` list is `[copy_from]` for a `copy_from` spec and the
`dependence` list otherwise); on success notify the resolver of
`(sheet, title)`. -/
def columnStep (srcDb : Database) (exSrcDb : List Database) (subDb : Database)
    (args : List Val) (sheetName : String) (tIdx : Nat)
    (st : Database × SuspendedList) (cconf : CConf) : PyM (Database × SuspendedList) := do
  let (db', succ) ← processCconf srcDb exSrcDb subDb st.1 tIdx cconf args none
  if succ then
    susCheckRel (releaseFun srcDb exSrcDb subDb tIdx args) db' st.2 (sheetName, cconf.title)
  else do
    let t ← db'.tableAt tIdx
    let (t', idx) := t.suspendedColumn
    let db'' := db'.setTable tIdx t'
    let waitFor ←
      match cconf.copy_from with
      | some cf => pure [cf]
      | none =>
          match cconf.dependence with
          | some d => pure d
          | none => (.error (.keyError "dependence") : PyM (List (String × String)))
    let sl' ← susAppend st.2 cconf waitFor idx
    return (db'', sl')

/-- The per-sheet part of `execute_migration`: create the target table, then
run the column loop with a fresh `SuspendedList`. Returns the updated target
database, the sheet's final resolver state, and the sheet's name (the
`new_table.name` available after the loop). -/
def processSheet (srcDb : Database) (exSrcDb : List Database) (subDb : Database)
    (args : List Val) (tgtDb : Database) (sconf : SheetConf) :
    PyM (Database × SuspendedList × String) := do
  let (db1, tIdx) := tgtDb.addTable sconf.name
  let acc ← sconf.columns.foldlM (columnStep srcDb exSrcDb subDb args sconf.name tIdx)
      (db1, SuspendedList.init)
  return (acc.1, acc.2, sconf.name)

/-- `migration_toolkit.execute_migration` on a config without a `process`
section. The drain check sits *after* the sheet loop in the source, so it
inspects only the last sheet's `sus_list` (and is skipped when there is no
sheet at all, which the `"sus_list" in locals()` guard expresses). -/
def executeMigration (config : Config) (srcDb : Database) (exSrcDb : List Database)
    (args : List Val) : PyM Database := do
  let subDb := Database.init
  let acc ← config.sheets.foldlM
      (fun (acc : Database × Option (SuspendedList × String)) sconf => do
         let r ← processSheet srcDb exSrcDb subDb args acc.1 sconf
         return (r.1, some (r.2.1, r.2.2)))
      (Database.init, none)
  match acc.2 with
  | none => return acc.1
  | some (sl, nm) =>
      if susSomethingHere sl then .error (.exn (susRaiseMsg nm sl))
      else return acc.1

/-- Observable content of a database: table names with each column's title
and raw cell data (bookkeeping fields dropped). Used to compare migration
outputs. -/
def obsDb (db : Database) : List (String × List (String × List Val)) :=
  db.tables.map (fun t => (t.name, t.columns.map (fun c => (c.title, c.rawData))))

/-- A one-table source database: table `People` with one plain column `Name`
holding `d`. -/
def srcPeople (d : List Val) : Database :=
  ⟨[⟨"People", [Col.plain "Name" "" d], [("Name", 0)], (d.length : Int)⟩], [("People", 0)]⟩

/-- Sheet `S` declaring `B` (a `_This` forward reference to `A`) *before*
`A`; `B` gets reserved position 0. -/
def cfgBA : Config := ⟨[⟨"S", [
  { title := "B", copy_from := some ("_This.S", "A") },
  { title := "A", copy_from := some ("People", "Name") }]⟩]⟩

/-- Sheet `S` declaring `A` before `B`. -/
def cfgAB : Config := ⟨[⟨"S", [
  { title := "A", copy_from := some ("People", "Name") },
  { title := "B", copy_from := some ("_This.S", "A") }]⟩]⟩

/-- Sheet `S` with a leading filled column, then `B` (forward reference to
`A`, reserved position 1), then `A`. -/
def cfgFBA : Config := ⟨[⟨"S", [
  { title := "F", fill_with := some (.vstr "x") },
  { title := "B", copy_from := some ("_This.S", "A") },
  { title := "A", copy_from := some ("People", "Name") }]⟩]⟩

/-- Sheet `S` with the same three columns declared in order `F`, `A`, `B`. -/
def cfgFAB : Config := ⟨[⟨"S", [
  { title := "F", fill_with := some (.vstr "x") },
  { title := "A", copy_from := some ("People", "Name") },
  { title := "B", copy_from := some ("_This.S", "A") }]⟩]⟩

/-- Two sheets: `S1` holds a column whose `_This` reference names a column
title never declared in `S1`; `S2` is unproblematic. -/
def cfgEarlyMissing : Config := ⟨[
  ⟨"S1", [{ title := "Z", copy_from := some ("_This.S1", "Missing") }]⟩,
  ⟨"S2", [{ title := "W", fill_with := some (.vstr "x") }]⟩]⟩

/-- One sheet whose only column references a column title never declared in
it. -/
def cfgLastMissing : Config := ⟨[
  ⟨"S", [{ title := "Z", copy_from := some ("_This.S", "Missing") }]⟩]⟩

/-- A release function that does nothing, for exercising the
`SuspendedList` state machine in isolation. -/
def noRelease : CConf → Nat → Unit → PyM Unit := fun _ _ _ => .ok ()

/-- The shared-key scenario for the resolver: entry `E1` waits on `K1`
alone; entry `E2` waits on `K1` *and* `K2`; then `K1` and `K2` become
available in turn. Returns each entry's released flag and the remaining
waitlist. -/
def sharedKeyRun : PyM (List Bool × List (ColInfo × List Nat)) := do
  let sl1 ← susAppend SuspendedList.init { title := "E1" } [("_This.S", "K1")] 0
  let sl2 ← susAppend sl1 { title := "E2" } [("_This.S", "K1"), ("_This.S", "K2")] 1
  let r1 ← susCheckRel noRelease () sl2 ("S", "K1")
  let r2 ← susCheckRel noRelease () r1.2 ("S", "K2")
  return (r2.2.entries.map (fun e => e.released), r2.2.waitlist)

/-- The two-key scenario without key sharing: one entry waiting on `K1` and
`K2`, notified in the given order. -/
def freshKeysRun (k1 k2 : ColInfo) : PyM (List Bool) := do
  let sl ← susAppend SuspendedList.init { title := "E" }
      [("_This.S", "K1"), ("_This.S", "K2")] 0
  let r1 ← susCheckRel noRelease () sl k1
  let r2 ← susCheckRel noRelease () r1.2 k2
  return r2.2.entries.map (fun e => e.released)

/-- A column spec whose `dependence` list mixes a reference to a missing
primary-source table with a `_This` forward reference. -/
def mixedDepConf : CConf :=
  { title := "M", dependence := some [("Nope", "X"), ("_This.S", "A")],
    script := some (fun _ t _ _ => t) }

/-- Run one column step of `execute_migration` on a fresh target database
holding only the new empty sheet table `S`. -/
def stepOnFreshSheet (src : Database) (ex : List Database) (cconf : CConf) :
    PyM (Database × SuspendedList) :=
  let p := Database.init.addTable "S"
  columnStep src ex Database.init [] "S" p.2 (p.1, SuspendedList.init) cconf

/-- A table holding a fresh (never-mutated) `IndexColumn` and a plain
two-row column, as `append_column` builds it. -/
def idxTbl : Table :=
  ((Table.init "T").appendCol (.indexc "I" "" 1 [])).appendCol
    (.plain "A" "" [.vstr "a", .vstr "b"])

/-- The value `IndexColumn.get_data` yields at a non-negative row index:
the materialized cell when the row is materialized, `start_from + i`
otherwise. -/
def indexSpec (s : Int) (d : List Val) (i : Nat) : Val :=
  if h : i < d.length then d.get ⟨i, h⟩ else .vint (s + i)

deriving instance DecidableEq for Except

@[simp] lemma pymBindOk {α β : Type} (a : α) (f : α → PyM β) :
    (Except.ok a >>= f : PyM β) = f a := rfl

@[simp] lemma pymBindError {α β : Type} (e : PyErr) (f : α → PyM β) :
    ((Except.error e : PyM α) >>= f : PyM β) = .error e := rfl

@[simp] lemma pymMapOk {α β : Type} (a : α) (f : α → β) :
    (f <$> (Except.ok a : PyM α) : PyM β) = .ok (f a) := rfl

@[simp] lemma pymMapError {α β : Type} (e : PyErr) (f : α → β) :
    (f <$> (Except.error e : PyM α) : PyM β) = .error e := rfl

@[simp] lemma pymPure {α : Type} (a : α) : (pure a : PyM α) = .ok a := rfl

lemma dictLookup_dictSet {α : Type} [DecidableEq α] {β : Type}
    (d : List (α × β)) (k : α) (v : β) :
    dictLookup (dictSet d k v) k = some v := by
  induction d with
  | nil => simp [dictSet, dictLookup]
  | cons p rest ih =>
      by_cases h : p.1 = k <;> simp [dictSet, dictLookup, h, ih]

lemma pyIndex_nat (l : List Val) (i : Nat) (h : i < l.length) :
    pyIndex l (i : Int) = .ok (l.get ⟨i, h⟩) := by
  simp [pyIndex, Int.toNat_natCast, h, Int.natCast_nonneg]

lemma indexc_getData_nat (t cm : String) (s : Int) (d : List Val) (i : Nat) :
    (Col.indexc t cm s d).getData (i : Int) = .ok (indexSpec s d i) := by
  by_cases h : i < d.length
  · simp only [Col.getData, indexSpec, dif_pos h,
      if_pos (by exact_mod_cast h : (i : Int) < (d.length : Int))]
    exact pyIndex_nat d i h
  · simp only [Col.getData, indexSpec, dif_neg h]
    rw [if_neg (by exact_mod_cast h)]

lemma del_materialize (t cm : String) (s : Int) (d : List Val) (k : Nat) :
    (Col.indexc t cm s d).delRow k =
      .indexc t cm (s + 1)
        ((d ++ ((List.range (k + 1)).drop d.length).map
            (fun (j : Nat) => Val.vint (s + (j : Int)))).eraseIdx k) := by
  simp only [Col.delRow, Col.baseDelRow]
  rw [if_pos]
  simp only [List.length_append, List.length_map, List.length_drop, List.length_range]
  omega

lemma dm_getElem (s : Int) (d : List Val) (k j : Nat)
    (hj : j < (d ++ ((List.range (k + 1)).drop d.length).map
        (fun (n : Nat) => Val.vint (s + (n : Int)))).length) :
    (d ++ ((List.range (k + 1)).drop d.length).map
        (fun (n : Nat) => Val.vint (s + (n : Int))))[j] =
      if h : j < d.length then d[j] else .vint (s + (j : Int)) := by
  by_cases h : j < d.length
  · rw [dif_pos h, List.getElem_append_left h]
  · rw [dif_neg h]
    rw [List.getElem_append_right (by omega)]
    simp only [List.getElem_map, List.getElem_drop, List.getElem_range]
    congr 1
    simp only [List.length_append, List.length_map, List.length_drop, List.length_range] at hj
    omega

/-- Claim C5: an Index column with start offset `s` reads `s + i` at every
row `i ≥ 0` before any mutation; and after `del_row k` from an arbitrary
(hence also any reachable) Index-column state, rows below `k` read what they
read before while rows at or above `k` read what row `i + 1` read before. -/
theorem index_column_get_del_spec (t cm : String) (s : Int) (d : List Val) (k i : Nat) :
    ((Col.indexc t cm s []).getData (i : Int) = .ok (.vint (s + (i : Int)))) ∧
    (i < k → ((Col.indexc t cm s d).delRow k).getData (i : Int) =
       (Col.indexc t cm s d).getData (i : Int)) ∧
    (k ≤ i → ((Col.indexc t cm s d).delRow k).getData (i : Int) =
       (Col.indexc t cm s d).getData ((i : Int) + 1)) := by
  have hcast : ((i : Int) + 1) = (((i + 1 : Nat)) : Int) := by push_cast; ring
  refine ⟨?_, ?_, ?_⟩
  · rw [indexc_getData_nat]
    simp [indexSpec]
  · intro hik
    rw [del_materialize, indexc_getData_nat, indexc_getData_nat]
    set dm := d ++ ((List.range (k + 1)).drop d.length).map
        (fun (n : Nat) => Val.vint (s + (n : Int))) with hdm
    have hdmlen : dm.length = d.length + ((k + 1) - d.length) := by
      simp [hdm]
    have herlen : (dm.eraseIdx k).length = dm.length - 1 := by
      rw [List.length_eraseIdx]
      simp only [if_pos (by omega : k < dm.length)]
    have hilt : i < (dm.eraseIdx k).length := by omega
    congr 1
    rw [indexSpec, dif_pos hilt, List.get_eq_getElem,
      List.getElem_eraseIdx_of_lt dm k i hilt hik, dm_getElem]
    by_cases h : i < d.length
    · rw [dif_pos h, indexSpec, dif_pos h, List.get_eq_getElem]
    · rw [dif_neg h, indexSpec, dif_neg h]
  · intro hki
    rw [del_materialize, hcast, indexc_getData_nat, indexc_getData_nat]
    set dm := d ++ ((List.range (k + 1)).drop d.length).map
        (fun (n : Nat) => Val.vint (s + (n : Int))) with hdm
    have hdmlen : dm.length = d.length + ((k + 1) - d.length) := by
      simp [hdm]
    have herlen : (dm.eraseIdx k).length = dm.length - 1 := by
      rw [List.length_eraseIdx]
      simp only [if_pos (by omega : k < dm.length)]
    congr 1
    by_cases hi : i < (dm.eraseIdx k).length
    · rw [indexSpec, dif_pos hi, List.get_eq_getElem,
        List.getElem_eraseIdx_of_ge dm k i hi hki, dm_getElem]
      by_cases h : i + 1 < d.length
      · rw [dif_pos h, indexSpec, dif_pos h, List.get_eq_getElem]
      · rw [dif_neg h, indexSpec, dif_neg h]
    · rw [indexSpec, dif_neg hi, indexSpec, dif_neg (by omega : ¬ (i + 1 < d.length))]
      congr 1
      push_cast
      ring

/-- Witness for C5 at concrete inputs: start 5, delete row 2, read rows on
both sides of the deletion point. -/
theorem index_column_get_del_spec_witness :
    ((Col.indexc "I" "" 5 []).getData ((0 : Nat) : Int) = .ok (.vint (5 + ((0 : Nat) : Int)))) ∧
    ((1 : Nat) < 2 ∧ ((Col.indexc "I" "" 5 []).delRow 2).getData ((1 : Nat) : Int) =
       (Col.indexc "I" "" 5 []).getData ((1 : Nat) : Int)) ∧
    ((2 : Nat) ≤ 3 ∧ ((Col.indexc "I" "" 5 []).delRow 2).getData ((3 : Nat) : Int) =
       (Col.indexc "I" "" 5 []).getData (((3 : Nat) : Int) + 1)) :=
  ⟨(index_column_get_del_spec "I" "" 5 [] 2 0).1,
   ⟨by decide, (index_column_get_del_spec "I" "" 5 [] 2 1).2.1 (by decide)⟩,
   ⟨by decide, (index_column_get_del_spec "I" "" 5 [] 2 3).2.2 (by decide)⟩⟩

/-- Claim C10: a plain (concrete-backed) column's `get_data` returns `None`
(no exception) at every integer index at or beyond its count. -/
theorem plain_getData_beyond_count_is_none (t c : String) (d : List Val) (i : Int)
    (h : (d.length : Int) ≤ i) : (Col.plain t c d).getData i = .ok .vnone := by
  have hn : ¬ (i < (d.length : Int)) := not_lt.mpr h
  simp [Col.getData, hn]

/-- Witness for C10 at a concrete input. -/
theorem plain_getData_beyond_count_is_none_witness :
    (((List.length [Val.vstr "x"] : Int)) ≤ 5) ∧
      (Col.plain "A" "" [Val.vstr "x"]).getData 5 = .ok .vnone :=
  ⟨by decide, plain_getData_beyond_count_is_none "A" "" [Val.vstr "x"] 5 (by decide)⟩

/-- Claim C8: a mapping dict whose values are all `_Origin` changes nothing —
adjusting existing data with `_mapping_dict` returns it unchanged, and
constructing a column from data with such a mapping stores the data
verbatim. -/
theorem origin_mapping_is_noop (m : List (Val × Val)) (d : List Val) (t : String)
    (c : Option String) (h : ∀ kv ∈ m, kv.2 = vOrigin) :
    mappingDict m d = .ok d ∧
    mkColumn t c (.fromList d) (some (.dict m)) = .ok (.plain t (c.getD "") d) := by
  have hall : m.all (fun kv => kv.2 = vOrigin) = true := by
    simp only [List.all_eq_true, decide_eq_true_eq]
    exact h
  refine ⟨?_, ?_⟩
  · simp only [mappingDict, hall, if_pos]
    rfl
  · cases d with
    | nil => rfl
    | cons a l =>
        simp only [mkColumn, DataArg.truthy, mappingDict, hall, List.isEmpty_cons,
          Bool.not_false, if_pos]
        rfl

/-- Witness for C8 at a concrete input. -/
theorem origin_mapping_is_noop_witness :
    (∀ kv ∈ [(Val.vstr "u", vOrigin), (vOther, vOrigin)], kv.2 = vOrigin) ∧
    mappingDict [(Val.vstr "u", vOrigin), (vOther, vOrigin)]
        [Val.vstr "u", Val.vstr "v", Val.vnone] =
      .ok [Val.vstr "u", Val.vstr "v", Val.vnone] :=
  ⟨by decide,
   (origin_mapping_is_noop [(Val.vstr "u", vOrigin), (vOther, vOrigin)]
     [Val.vstr "u", Val.vstr "v", Val.vnone] "T" none (by decide)).1⟩

/-- Claim C6 (failing input): on a table holding a fresh `IndexColumn`,
`swap_row(i, i)` is a no-op as specified, but `swap_row(0, 1)` raises
`TypeError` because `IndexColumn.swap_row` subscripts the bound method
`self.get_data` instead of calling it — so no double swap over an Index
column can run, let alone restore row content. -/
theorem index_column_swap_raises_typeerror :
    idxTbl.swapRow 1 1 = .ok idxTbl ∧
    idxTbl.swapRow 0 1 = .error (.typeError "method object is not subscriptable") := by
  exact ⟨by decide, by decide⟩

/-- Claim C2 (failing input): entry `E2` (waiting on `K1` and `K2`) shares
its first unmet key `K1` with the already-registered entry `E1`, so the
early `return` in `SuspendedList.append` registers `E2` under `K1` only;
notifying `K1` and then `K2` releases `E1` but leaves `E2` unreleased and
deletes it from the waitlist entirely (the drain check would see nothing).
Without key sharing the same two-key entry is released in either notify
order, as the claim demands. -/
theorem suspended_list_shared_key_drops_entry :
    sharedKeyRun = .ok ([true, false], []) ∧
    freshKeysRun ("S", "K1") ("S", "K2") = .ok [true] ∧
    freshKeysRun ("S", "K2") ("S", "K1") = .ok [true] := by
  exact ⟨by decide, by decide, by decide⟩

/-- Claim C7 (counterexample): `append_column` performs no title check —
appending a second column titled `A` succeeds, leaving two columns with the
same title, so the title-to-position mapping is not injective over the
columns and no error is raised. -/
theorem duplicate_title_append_accepted :
    ((Table.init "T").appendCol (.plain "A" "" [.vstr "x"])).appendCol
        (.plain "A" "" [.vstr "y"]) =
      ⟨"T", [.plain "A" "" [.vstr "x"], .plain "A" "" [.vstr "y"]], [("A", 1)], 1⟩ ∧
    (((Table.init "T").appendCol (.plain "A" "" [.vstr "x"])).appendCol
        (.plain "A" "" [.vstr "y"])).columns.map Col.title = ["A", "A"] := by
  exact ⟨by decide, by decide⟩

/-- Claim C7 (amended): `append_column` and `insert_column` accept duplicate
titles — they always succeed, and afterwards the title map points at the
column just added, shadowing any earlier column of the same title; only the
helper `_check_new_title`, which neither operation invokes, rejects an
existing title with `ValueError`. -/
theorem title_uniqueness_not_enforced (t : Table) (c : Col) (i : Nat) (ttl : String)
    (h : dictMem t.columnIndex ttl = true) :
    dictLookup (t.appendCol c).columnIndex c.title = some t.columns.length ∧
    (t.appendCol c).columns.length = t.columns.length + 1 ∧
    dictLookup (t.insertCol i c).columnIndex c.title = some i ∧
    t.checkNewTitle ttl = .error (.valueError "Title already exists.") := by
  refine ⟨?_, ?_, ?_, ?_⟩
  · simp [Table.appendCol, dictLookup_dictSet]
  · simp [Table.appendCol]
  · simp [Table.insertCol, dictLookup_dictSet]
  · simp [Table.checkNewTitle, h]

/-- Witness for C7's amended statement at a concrete input. -/
theorem title_uniqueness_not_enforced_witness :
    dictMem ((Table.init "T").appendCol (.plain "A" "" [.vstr "x"])).columnIndex "A" = true ∧
    ((Table.init "T").appendCol (.plain "A" "" [.vstr "x"])).checkNewTitle "A" =
      .error (.valueError "Title already exists.") :=
  ⟨by decide,
   (title_uniqueness_not_enforced ((Table.init "T").appendCol (.plain "A" "" [.vstr "x"]))
     (.plain "A" "" [.vstr "y"]) 0 "A" (by decide)).2.2.2⟩

/-- Claim C1 (counterexample): with source `People.Name = [Al, Bo]`,
declaring `B` (copying `_This.S.A`) before `A` yields a three-column table —
the placeholder is left at reserved position 0 and the released `B` is
appended at the end, because `process_cconf` guards on `if pos:` and
position 0 is falsy — while declaring `A` before `B` yields the expected
two-column table; the two outputs are not identical. -/
theorem forward_ref_declaration_order_counterexample :
    (executeMigration cfgBA (srcPeople [.vstr "Al", .vstr "Bo"]) [] []).map obsDb =
      .ok [("S", [("", []), ("A", [.vstr "Al", .vstr "Bo"]),
                  ("B", [.vstr "Al", .vstr "Bo"])])] ∧
    (executeMigration cfgAB (srcPeople [.vstr "Al", .vstr "Bo"]) [] []).map obsDb =
      .ok [("S", [("A", [.vstr "Al", .vstr "Bo"]), ("B", [.vstr "Al", .vstr "Bo"])])] ∧
    (executeMigration cfgBA (srcPeople [.vstr "Al", .vstr "Bo"]) [] []).map obsDb ≠
      (executeMigration cfgAB (srcPeople [.vstr "Al", .vstr "Bo"]) [] []).map obsDb := by
  exact ⟨by decide, by decide, by decide⟩

/-- Claim C1 (amended): for every source data `d`, a deferred forward
reference is retried at release and succeeds with the same cell values as in
the forward declaration order; when the reserved position is nonzero (here
1) the released column replaces its placeholder at that position, so the two
declaration orders agree on titles and per-title cell values and differ only
in column order; when the reserved position is 0, `if pos:` treats the
position as unset — the released column is appended at the end and the
placeholder remains at position 0. -/
theorem forward_ref_release_behavior (d : List Val) :
    (executeMigration cfgFBA (srcPeople d) [] []).map obsDb =
      .ok [("S", [("F", []), ("B", d), ("A", d)])] ∧
    (executeMigration cfgFAB (srcPeople d) [] []).map obsDb =
      .ok [("S", [("F", []), ("A", d), ("B", d)])] ∧
    (executeMigration cfgBA (srcPeople d) [] []).map obsDb =
      .ok [("S", [("", []), ("A", d), ("B", d)])] ∧
    (executeMigration cfgAB (srcPeople d) [] []).map obsDb =
      .ok [("S", [("A", d), ("B", d)])] :=
  ⟨rfl, rfl, rfl, rfl⟩

/-- Claim C3 (counterexample): sheet `S1` (not the last sheet) ends its
column loop with a non-empty waitlist — its placeholder is never replaced —
yet the migration completes without any dependency error, because the drain
check sits after the sheet loop and inspects only the last sheet's resolver
state. -/
theorem early_sheet_unmet_deps_ignored :
    (executeMigration cfgEarlyMissing (srcPeople []) [] []).map obsDb =
      .ok [("S1", [("", [])]), ("S2", [("W", [])])] := by
  decide

/-- Claim C3 (amended): the drain check runs once, after all sheets, on the
last sheet's waitlist: a column referencing a title never declared in the
*last* sheet makes the whole migration raise a dependency error enumerating
that column (title, reserved position, unmet keys); the same situation in an
earlier sheet is silently dropped. -/
theorem last_sheet_unmet_deps_raise (d : List Val) :
    executeMigration cfgLastMissing (srcPeople d) [] [] =
      .error (.exn "DependencyError:\nS Z 0 -> [(S, Missing)]\n") :=
  rfl

/-- Claim C4 (counterexample): a `dependence` spec that references a missing
primary-source table (`Nope`) *and* an unresolved `_This` forward reference
is not fatally rejected — the step succeeds and the column is placed on the
deferral waitlist (keyed by the `_This` reference only). -/
theorem missing_ref_with_this_ref_deferred :
    pmIsOk (stepOnFreshSheet (srcPeople []) [] mixedDepConf) = true ∧
    (stepOnFreshSheet (srcPeople []) [] mixedDepConf).map (fun st => st.2.waitlist) =
      .ok [(("S", "A"), [0])] := by
  exact ⟨by decide, by decide⟩

/-- Claim C4 (amended): for a column spec none of whose `copy_from` or
`dependence` table locators is a `_This.` reference, any reference-resolution
failure — a missing table or column in the primary source, an auxiliary
(`_AddN`) dataset or a sub-table (`_SubN`) dataset (`KeyError`), or an
out-of-range dataset number (`IndexError`) — makes the combined
process-and-defer step of `execute_migration` raise a fatal error (a
`KeyError` first turns into a deferral signal, which `_SuspendInfo.__init__`
then rejects because the entry has no `_This` key), so the column is never
registered on the waitlist. -/
theorem missing_ref_without_this_ref_fatal :
    (∀ (src : Database) (ex : List Database) (sub tgt : Database) (tIdx : Nat)
       (sl : SuspendedList) (nm : String) (args : List Val) (cconf : CConf)
       (tref cref : String) (e : PyErr),
       cconf.copy_from = some (tref, cref) →
       thisRefName tref = none →
       dereferenceColumn src ex sub tgt tref cref = .error e →
       pmIsOk (columnStep src ex sub args nm tIdx (tgt, sl) cconf) = false) ∧
    (∀ (src : Database) (ex : List Database) (sub tgt : Database) (tIdx : Nat)
       (sl : SuspendedList) (nm : String) (args : List Val) (cconf : CConf)
       (refs : List (String × String)) (e : PyErr),
       cconf.copy_from = none → cconf.index_start = none → cconf.fill_with = none →
       cconf.dependence = some refs →
       (∀ r ∈ refs, thisRefName r.1 = none) →
       refs.mapM (fun r => dereferenceColumn src ex sub tgt r.1 r.2) = .error e →
       pmIsOk (columnStep src ex sub args nm tIdx (tgt, sl) cconf) = false) := by
  constructor
  · intro src ex sub tgt tIdx sl nm args cconf tref cref e h1 h2 h3
    cases e with
    | keyError m =>
        simp only [columnStep, processCconf, h1, h3]
        cases htab : tgt.tableAt tIdx with
        | error e' => simp [htab, pmIsOk]
        | ok tb =>
            simp [htab, h1, susAppend, mkSuspendInfo, h2, pmIsOk,
              Table.suspendedColumn, List.filterMap]
    | indexError m => simp [columnStep, processCconf, h1, h3, pmIsOk]
    | typeError m => simp [columnStep, processCconf, h1, h3, pmIsOk]
    | valueError m => simp [columnStep, processCconf, h1, h3, pmIsOk]
    | nameError m => simp [columnStep, processCconf, h1, h3, pmIsOk]
    | exn m => simp [columnStep, processCconf, h1, h3, pmIsOk]
  · intro src ex sub tgt tIdx sl nm args cconf refs e h0 ha hb h1 h2 h3
    have hfm : refs.filterMap (fun r => (thisRefName r.1).map (fun x => (x, r.2))) = [] := by
      rw [List.filterMap_eq_nil_iff]
      intro r hr
      simp [h2 r hr]
    have h3l : List.mapM.loop (fun r => dereferenceColumn src ex sub tgt r.1 r.2) refs [] =
        .error e := h3
    cases e with
    | keyError m =>
        cases htab : tgt.tableAt tIdx with
        | error e' => simp [columnStep, processCconf, h0, ha, hb, h1, h3l, htab, pmIsOk]
        | ok tb =>
            simp [columnStep, processCconf, h0, ha, hb, h1, h3l, htab, susAppend,
              mkSuspendInfo, hfm, pmIsOk, Table.suspendedColumn]
    | indexError m => simp [columnStep, processCconf, h0, ha, hb, h1, h3l, pmIsOk]
    | typeError m => simp [columnStep, processCconf, h0, ha, hb, h1, h3l, pmIsOk]
    | valueError m => simp [columnStep, processCconf, h0, ha, hb, h1, h3l, pmIsOk]
    | nameError m => simp [columnStep, processCconf, h0, ha, hb, h1, h3l, pmIsOk]
    | exn m => simp [columnStep, processCconf, h0, ha, hb, h1, h3l, pmIsOk]

/-- Witness for C4's amended statement: a `copy_from` spec naming the
missing primary-source table `Gone` makes the column step raise. -/
theorem missing_ref_without_this_ref_fatal_witness :
    thisRefName "Gone" = none ∧
    dereferenceColumn (srcPeople []) [] Database.init (Database.init.addTable "S").1
        "Gone" "X" = .error (.keyError "Gone") ∧
    pmIsOk (columnStep (srcPeople []) [] Database.init [] "S" 0
        ((Database.init.addTable "S").1, SuspendedList.init)
        { title := "P", copy_from := some ("Gone", "X") }) = false :=
  ⟨by decide, by decide,
   missing_ref_without_this_ref_fatal.1 (srcPeople []) [] Database.init
     (Database.init.addTable "S").1 0 SuspendedList.init "S" []
     { title := "P", copy_from := some ("Gone", "X") } "Gone" "X" (.keyError "Gone")
     rfl (by decide) (by decide)⟩

/-- Claim C9 (counterexample): a spec whose `index_start` (or `fill_with`)
is an actual integer value does not build a column — `substitute_args` calls
`re.match` on it and a non-string raises `TypeError`. -/
theorem int_literal_substitution_typeerror :
    processCconf Database.init [] Database.init (Database.init.addTable "S").1 0
        { title := "I", index_start := some (.vint 5) } [] none =
      .error (.typeError "expected string or bytes-like object") ∧
    processCconf Database.init [] Database.init (Database.init.addTable "S").1 0
        { title := "F", fill_with := some (.vint 7) } [] none =
      .error (.typeError "expected string or bytes-like object") := by
  exact ⟨by decide, by decide⟩

/-- Claim C9 (amended): restricted to *string* values the substitution works
as claimed. (1) An `index_start` string that is not of the `_arg` form and
parses as an integer `n` builds an Index column starting at `n`. (2) An
`index_start` string of the form `_arg<N>` with `N` a valid argument index
is replaced by `args[N]`, and the Index column starts at `int(args[N])`.
(3) A `fill_with` string not of the `_arg` form builds a Filled column
holding that very string. (4) A `fill_with` string of the form `_arg<N>`
builds a Filled column holding `args[N]`. -/
theorem arg_substitution_string_forms :
    (∀ (src : Database) (ex : List Database) (sub tgt : Database) (tIdx : Nat)
       (tbl : Table) (ttl : String) (cm : Option String) (args : List Val)
       (ds : String) (n : Int),
       strStartsWith ds "_arg" = false →
       pyIntOfString ds = .ok n →
       tgt.tableAt tIdx = .ok tbl →
       processCconf src ex sub tgt tIdx
           { title := ttl, comment := cm, index_start := some (.vstr ds) } args none =
         .ok (tgt.setTable tIdx (tbl.appendCol (mkIndexColumn ttl cm n)), true)) ∧
    (∀ (src : Database) (ex : List Database) (sub tgt : Database) (tIdx : Nat)
       (tbl : Table) (ttl : String) (cm : Option String) (args : List Val)
       (s : String) (nn : Int) (v : Val) (n : Int),
       strStartsWith s "_arg" = true →
       strAll Char.isDigit (strTake (s.drop 4) 1) = true →
       s.drop 4 ≠ "" →
       pyIntOfString (s.drop 4) = .ok nn →
       pyIndex args nn = .ok v →
       pyInt v = .ok n →
       tgt.tableAt tIdx = .ok tbl →
       processCconf src ex sub tgt tIdx
           { title := ttl, comment := cm, index_start := some (.vstr s) } args none =
         .ok (tgt.setTable tIdx (tbl.appendCol (mkIndexColumn ttl cm n)), true)) ∧
    (∀ (src : Database) (ex : List Database) (sub tgt : Database) (tIdx : Nat)
       (tbl : Table) (ttl : String) (cm : Option String) (args : List Val)
       (fs : String),
       strStartsWith fs "_arg" = false →
       tgt.tableAt tIdx = .ok tbl →
       processCconf src ex sub tgt tIdx
           { title := ttl, comment := cm, fill_with := some (.vstr fs) } args none =
         .ok (tgt.setTable tIdx (tbl.appendCol (mkFilledColumn ttl cm (.vstr fs))), true)) ∧
    (∀ (src : Database) (ex : List Database) (sub tgt : Database) (tIdx : Nat)
       (tbl : Table) (ttl : String) (cm : Option String) (args : List Val)
       (s : String) (nn : Int) (v : Val),
       strStartsWith s "_arg" = true →
       strAll Char.isDigit (strTake (s.drop 4) 1) = true →
       s.drop 4 ≠ "" →
       pyIntOfString (s.drop 4) = .ok nn →
       pyIndex args nn = .ok v →
       tgt.tableAt tIdx = .ok tbl →
       processCconf src ex sub tgt tIdx
           { title := ttl, comment := cm, fill_with := some (.vstr s) } args none =
         .ok (tgt.setTable tIdx (tbl.appendCol (mkFilledColumn ttl cm v)), true)) := by
  refine ⟨?_, ?_, ?_, ?_⟩
  · intro src ex sub tgt tIdx tbl ttl cm args ds n h1 h2 h3
    simp [processCconf, substituteArgs, h1, pyInt, h2, h3]
  · intro src ex sub tgt tIdx tbl ttl cm args s nn v n h1 h2 h3 h4 h5 h6
    intro h7
    simp [processCconf, substituteArgs, h1, h2, h3, h4, h5, h6, h7]
  · intro src ex sub tgt tIdx tbl ttl cm args fs h1 h3
    simp [processCconf, substituteArgs, h1, h3]
  · intro src ex sub tgt tIdx tbl ttl cm args s nn v h1 h2 h3 h4 h5 h7
    simp [processCconf, substituteArgs, h1, h2, h3, h4, h5, h7]

/-- Witness for C9's amended statement: a literal digit string, and `_arg0`
against a one-element argument list, for both `index_start` and
`fill_with`. -/
theorem arg_substitution_string_forms_witness :
    processCconf Database.init [] Database.init (Database.init.addTable "S").1 0
        { title := "I", comment := none, index_start := some (.vstr "42") } [] none =
      .ok ((Database.init.addTable "S").1.setTable 0
        ((Table.init "S").appendCol (mkIndexColumn "I" none 42)), true) ∧
    processCconf Database.init [] Database.init (Database.init.addTable "S").1 0
        { title := "I", comment := none, index_start := some (.vstr "_arg0") }
        [.vstr "20230601"] none =
      .ok ((Database.init.addTable "S").1.setTable 0
        ((Table.init "S").appendCol (mkIndexColumn "I" none 20230601)), true) ∧
    processCconf Database.init [] Database.init (Database.init.addTable "S").1 0
        { title := "F", comment := none, fill_with := some (.vstr "hello") } [] none =
      .ok ((Database.init.addTable "S").1.setTable 0
        ((Table.init "S").appendCol (mkFilledColumn "F" none (.vstr "hello"))), true) ∧
    processCconf Database.init [] Database.init (Database.init.addTable "S").1 0
        { title := "F", comment := none, fill_with := some (.vstr "_arg0") }
        [.vint 7] none =
      .ok ((Database.init.addTable "S").1.setTable 0
        ((Table.init "S").appendCol (mkFilledColumn "F" none (.vint 7))), true) :=
  ⟨arg_substitution_string_forms.1 Database.init [] Database.init
     (Database.init.addTable "S").1 0 (Table.init "S") "I" none [] "42" 42
     (by decide) (by decide) (by decide),
   arg_substitution_string_forms.2.1 Database.init [] Database.init
     (Database.init.addTable "S").1 0 (Table.init "S") "I" none [.vstr "20230601"]
     "_arg0" 0 (.vstr "20230601") 20230601
     (by decide) (by decide) (by decide) (by decide) (by decide) (by decide) (by decide),
   arg_substitution_string_forms.2.2.1 Database.init [] Database.init
     (Database.init.addTable "S").1 0 (Table.init "S") "F" none [] "hello"
     (by decide) (by decide),
   arg_substitution_string_forms.2.2.2 Database.init [] Database.init
     (Database.init.addTable "S").1 0 (Table.init "S") "F" none [.vint 7]
     "_arg0" 0 (.vint 7)
     (by decide) (by decide) (by decide) (by decide) (by decide) (by decide)⟩
